import Mathlib

/-!
Verification development for the `game-capture` service
(`src/game-capture/src/main.cpp`): a Windows Graphics Capture loop that
locates a target process, captures its window frames via a free-threaded
frame pool, hands GPU frames to a mutex-guarded single-slot shared buffer,
and saves the latest frame to disk once per second using an atomic
temp-then-rename BMP writer.

The development shallowly embeds the program's data model and operations:
GPU textures become records with explicit dimensions and byte content,
the `SharedFrame` slot and its `update`/snapshot protocol become pure
state transformers, the session (frame arrivals, saver ticks) becomes a
fold over an event list, teardown paths become explicit step traces, and
`BmpWriter::write` becomes a pure byte-list producer.
-/

/-- A GPU texture (`ID3D11Texture2D`), modelled by its descriptor
dimensions and its pixel bytes. -/
structure Texture where
  w : Nat
  h : Nat
  data : List Nat
deriving DecidableEq, Repr

/-- The `SharedFrame` struct of `main.cpp` (lines 492-498): a nullable
texture pointer plus separately stored dimensions, guarded by a mutex.
The mutex is implicit in the sequential embedding: every access below
models one critical section. -/
structure SharedFrame where
  tex : Option Texture
  w : Nat
  h : Nat
deriving DecidableEq, Repr

/-- Initial shared state: `ComPtr` default-constructs to null, `w = 0`,
`h = 0` (member initialisers in the struct definition). -/
def SharedFrame.init : SharedFrame := ⟨none, 0, 0⟩

/-- `CreateTexture2D` for the shared slot: a fresh default-usage texture
with the incoming frame's descriptor dimensions; contents uninitialised
(modelled as zeros — always overwritten by the copy that follows). -/
def allocTexture (w h : Nat) : Texture := ⟨w, h, List.replicate (w * h * 4) 0⟩

/-- `ctx->CopyResource(dst, src)`: a full-resource GPU copy replaces the
destination's contents; the destination keeps its own descriptor
(D3D11 requires matching descriptors for the copy to be defined). -/
def copyResource (dst src : Texture) : Texture := { dst with data := src.data }

/-- Result of one `update` of the shared slot (the locked section of the
`FrameArrived` lambda, lines 529-556): the new state, whether a fresh
allocation was attempted, whether it succeeded, and whether the GPU copy
was performed. -/
structure UpdateResult where
  state : SharedFrame
  allocAttempted : Bool
  allocated : Bool
  copied : Bool
deriving DecidableEq, Repr

/-- The locked section of the `FrameArrived` lambda (lines 529-556):
if no texture exists or the stored dimensions differ from the incoming
frame's, attempt to allocate a replacement (`CreateTexture2D`); on
allocation failure return with nothing changed; otherwise copy the
incoming frame into the (possibly new) shared texture.  `allocOk` is the
oracle for the `SUCCEEDED(d3d->CreateTexture2D(...))` test. -/
def SharedFrame.update (s : SharedFrame) (f : Texture) (allocOk : Bool) : UpdateResult :=
  if s.tex.isNone || s.w != f.w || s.h != f.h then
    if allocOk then
      { state := { tex := some (copyResource (allocTexture f.w f.h) f), w := f.w, h := f.h },
        allocAttempted := true, allocated := true, copied := true }
    else
      { state := s, allocAttempted := true, allocated := false, copied := false }
  else
    { state := { s with tex := s.tex.map (fun t => copyResource t f) },
      allocAttempted := false, allocated := false, copied := true }

/-- The saver's locked read (lines 580-591): if no texture exists, skip;
otherwise take a reference to the texture together with the stored
dimensions. -/
def SharedFrame.snapshot (s : SharedFrame) : Option (Texture × Nat × Nat) :=
  match s.tex with
  | none => none
  | some t => some (t, s.w, s.h)

/-- One observable event of a capture session: a `FrameArrived` callback
invocation (with the outcome of `TryGetNextFrame` and of the allocation,
if one is needed), a saver-loop iteration (`tick`, carrying the elapsed
milliseconds since session start as read for the stall check), or the
supervisor clearing the `running` flag. -/
inductive SessEvent where
  | frameArrive (got : Option Texture) (allocOk : Bool)
  | tick (elapsedMs : Nat)
  | stopRunning
deriving DecidableEq, Repr

/-- `true` iff the event is a callback invocation that actually retrieves
a frame from the pool (`TryGetNextFrame` returns non-null). -/
def SessEvent.isFrameDelivery : SessEvent → Bool
  | .frameArrive (some _) _ => true
  | _ => false

/-- `true` iff the event clears the `running` flag. -/
def SessEvent.isStop : SessEvent → Bool
  | .stopRunning => true
  | _ => false

/-- `true` iff the event is a frame delivery whose allocation oracle is
positive (the only kind of event that can populate an empty shared
slot). -/
def SessEvent.isDeliveryWithAlloc : SessEvent → Bool
  | .frameArrive (some _) true => true
  | _ => false

/-- `true` unless the event delivers a frame with a zero dimension
(capture frames always have the pool's positive size). -/
def SessEvent.framePositive : SessEvent → Bool
  | .frameArrive (some f) _ => f.w != 0 && f.h != 0
  | _ => true

/-- The per-session mutable state shared between the `FrameArrived`
callback, the saver thread and the supervisor: the shared slot, the
`running` flag, the `frameEvents` counter, plus the observable outputs —
the textures saved to disk (in save order), the elapsed times at which
`capture_stalled_no_events` was logged, and the saver's `saveIdx`. -/
structure CaptureState where
  shared : SharedFrame
  running : Bool
  frameEvents : Nat
  files : List Texture
  stallLogs : List Nat
  saveIdx : Nat
deriving DecidableEq, Repr

/-- Session start (lines 492-502): empty shared slot, `running = true`,
`frameEvents = 0`, no files saved, `saveIdx = 0`. -/
def CaptureState.init : CaptureState := ⟨SharedFrame.init, true, 0, [], [], 0⟩

/-- One session event, as executed by the code.
`frameArrive` is the `FrameArrived` lambda (lines 505-557): return if
`running` is false; return if the pool yields no frame; otherwise bump
`frameEvents` and run the shared slot's update.
`tick` is one saver-loop iteration (lines 567-606): break if `running`
is false; log a stall if no frame event has been observed and more than
2000 ms have elapsed; then snapshot the shared slot — if empty, skip the
tick, otherwise save the referenced texture and increment `saveIdx`. -/
def stepEvent (st : CaptureState) (e : SessEvent) : CaptureState :=
  match e with
  | .stopRunning => { st with running := false }
  | .frameArrive got allocOk =>
    if st.running = false then st
    else
      match got with
      | none => st
      | some f =>
        { st with
          frameEvents := st.frameEvents + 1
          shared := (st.shared.update f allocOk).state }
  | .tick elapsed =>
    if st.running = false then st
    else
      let st₁ :=
        if st.frameEvents = 0 ∧ 2000 < elapsed then
          { st with stallLogs := st.stallLogs ++ [elapsed] }
        else st
      match st₁.shared.snapshot with
      | none => st₁
      | some (t, _, _) => { st₁ with files := st₁.files ++ [t], saveIdx := st₁.saveIdx + 1 }

/-- Run a session event trace from a state. -/
def runSession (st : CaptureState) (evs : List SessEvent) : CaptureState :=
  evs.foldl stepEvent st

/-- One teardown action of the supervisor loop in `main`. -/
inductive TeardownStep where
  | closeProcessHandle
  | clearRunning
  | revokeCallback
  | closeSession
  | closePool
  | clearSaverRun
  | joinSaver
deriving DecidableEq, Repr

/-- The normal teardown path (lines 639-646), transcribed in program
order: `CloseHandle(hProc); running = false; framePool.FrameArrived(token);
session.Close(); framePool.Close(); saverRun = false; saver.join();`. -/
def normalTeardown : List TeardownStep :=
  [.closeProcessHandle, .clearRunning, .revokeCallback, .closeSession, .closePool,
   .clearSaverRun, .joinSaver]

/-- The teardown performed when `OpenProcess` fails after the session was
started (lines 609-617), transcribed in program order:
`framePool.FrameArrived(token); framePool.Close(); session.Close();
continue;`. -/
def openProcFailTeardown : List TeardownStep :=
  [.revokeCallback, .closePool, .closeSession]

/-- The teardown order asserted by the specification (§5 "Teardown order
is fixed"), for comparison with the code's actual order: stop accepting
new frames, unregister the callback, close session and pool, stop the
Saver, join its thread, and release the process handle last. -/
def specTeardownOrder : List TeardownStep :=
  [.clearRunning, .revokeCallback, .closeSession, .closePool, .clearSaverRun,
   .joinSaver, .closeProcessHandle]

/-- The resources a session holds, each flagged "still held". -/
structure SessionResources where
  procHandleOpen : Bool
  callbackRegistered : Bool
  sessionOpen : Bool
  poolOpen : Bool
  running : Bool
  saverRun : Bool
  saverJoinable : Bool
deriving DecidableEq, Repr

/-- Effect of one teardown step on the held resources. -/
def applyTeardownStep (r : SessionResources) : TeardownStep → SessionResources
  | .closeProcessHandle => { r with procHandleOpen := false }
  | .clearRunning => { r with running := false }
  | .revokeCallback => { r with callbackRegistered := false }
  | .closeSession => { r with sessionOpen := false }
  | .closePool => { r with poolOpen := false }
  | .clearSaverRun => { r with saverRun := false }
  | .joinSaver => { r with saverJoinable := false }

/-- Run a teardown trace over the held resources. -/
def runTeardown (r : SessionResources) (steps : List TeardownStep) : SessionResources :=
  steps.foldl applyTeardownStep r

/-- State of a fully armed session, just before teardown: every resource
held, the saver thread running and joinable. -/
def allHeld : SessionResources := ⟨true, true, true, true, true, true, true⟩

/-- `true` iff no session resource is still held. -/
def allReleased (r : SessionResources) : Bool :=
  !r.procHandleOpen && !r.callbackRegistered && !r.sessionOpen && !r.poolOpen &&
  !r.running && !r.saverRun && !r.saverJoinable

/-- C++ semantics of the saver `std::thread` object, which is local to
one supervisor-loop iteration: when the iteration ends (by `continue` or
by reaching the loop end), the thread object is destroyed, and destroying
a `std::thread` that was started and never joined (still joinable) calls
`std::terminate`.  A teardown trace therefore terminates the process at
scope exit exactly when it lacks a `joinSaver` step. -/
def threadDestructorTerminates (steps : List TeardownStep) : Bool :=
  !(steps.contains .joinSaver)

/-- The kinds of effect the `FrameArrived` lambda can perform. -/
inductive CallbackEffect where
  | poolTryGetFrame
  | counterIncrement
  | diskLogWrite
  | interfaceQuery
  | readDesc
  | lockAcquire
  | gpuAllocate
  | gpuCopy
  | lockRelease
deriving DecidableEq, Repr

/-- The effect trace of one `FrameArrived` invocation (lines 505-557), in
program order.  Oracles: `running` is the flag load, `gotFrame` whether
`TryGetNextFrame` returns a frame, `qiOk`/`giOk` whether the two COM
interface queries succeed, `needAlloc` whether the shared slot needs a
new texture, `allocOk` whether `CreateTexture2D` succeeds.
`diskLogWrite` stands for a `logf` call, which appends a line to
`capture.log` via `fopen`/`fputs`/`fclose` (`log_line`, lines 49-84):
one per retrieved frame (`"frame_event"`, line 514) and one more, inside
the lock, when the shared texture is recreated (`"shared_texture_recreated"`,
line 548). -/
def frameArrivedEffects (running gotFrame qiOk giOk needAlloc allocOk : Bool) :
    List CallbackEffect :=
  if running = false then []
  else
    [.poolTryGetFrame] ++
      if gotFrame = false then []
      else
        [.counterIncrement, .diskLogWrite, .interfaceQuery] ++
          if qiOk = false then []
          else
            [.interfaceQuery] ++
              if giOk = false then []
              else
                [.readDesc, .lockAcquire] ++
                  if needAlloc then
                    if allocOk then [.gpuAllocate, .diskLogWrite, .gpuCopy, .lockRelease]
                    else [.gpuAllocate, .lockRelease]
                  else [.gpuCopy, .lockRelease]

/-- The effect kinds the specification allows the ingest callback
(§4.4): a frame-pool retrieval, an atomic counter increment, a lock
acquisition, and a GPU-side resource copy — written here with the
mechanically necessary companions (interface queries, descriptor read,
allocation, lock release) but, deliberately, without `diskLogWrite`. -/
def specAllowedCallbackEffects : List CallbackEffect :=
  [.poolTryGetFrame, .counterIncrement, .interfaceQuery, .readDesc, .lockAcquire,
   .gpuAllocate, .gpuCopy, .lockRelease]

/-- One disk operation attempted by `save_staging_to_file`. -/
inductive FileOp where
  | writeImage (path : String)
  | renameFile (src dst : String)
  | removeFile (path : String)
deriving DecidableEq, Repr

/-- `true` iff the operation is a rename whose destination is `dst`. -/
def FileOp.isRenameTo (dst : String) : FileOp → Bool
  | .renameFile _ d => d == dst
  | _ => false

/-- `true` iff the operation is a `remove`. -/
def FileOp.isRemove : FileOp → Bool
  | .removeFile _ => true
  | _ => false

/-- The disk-operation trace of `save_staging_to_file` (lines 278-374).
Oracles: `stagingOk` for the staging `CreateTexture2D`, `mapOk` for the
`Map` call (either failing returns before any disk operation), `writeOk`
for `BmpWriter::write` on the temporary path, `renameOk` for the first
`std::filesystem::rename`.  On write success the temporary file
(`outPath + ".pending"`) is renamed onto `outPath`; if that rename sets
the error code, the destination is removed and the rename is attempted
once more (whose outcome triggers no further action).  On write failure
the function just returns.  Every path returns normally: the embedding
is a total function, mirroring that no branch aborts the process. -/
def save_staging_to_file (outPath : String) (stagingOk mapOk writeOk renameOk : Bool) :
    List FileOp :=
  if stagingOk = false then []
  else if mapOk = false then []
  else
    let tmp := outPath ++ ".pending"
    if writeOk then
      if renameOk then [.writeImage tmp, .renameFile tmp outPath]
      else [.writeImage tmp, .renameFile tmp outPath, .removeFile outPath,
            .renameFile tmp outPath]
    else [.writeImage tmp]

/-- `stride = w * 3` (line 214). -/
def bmpStride (w : Nat) : Nat := w * 3

/-- `pad = (4 - (stride % 4)) & 3` (line 215); on naturals with
`stride % 4 < 4` the `& 3` is `% 4`. -/
def bmpPad (w : Nat) : Nat := (4 - bmpStride w % 4) % 4

/-- `dataSize = (stride + pad) * h` (line 216). -/
def bmpDataSize (w h : Nat) : Nat := (bmpStride w + bmpPad w) * h

/-- `bfOffBits = sizeof(BITMAPFILEHEADER) + sizeof(BITMAPINFOHEADER)`
`= 14 + 40` (line 218; the file header is 2-byte packed). -/
def bmpOffBits : Nat := 54

/-- Little-endian bytes of a 16-bit field. -/
def le16 (v : Nat) : List Nat := [v % 256, v / 256 % 256]

/-- Little-endian bytes of a 32-bit field. -/
def le32 (v : Nat) : List Nat :=
  [v % 256, v / 256 % 256, v / 65536 % 256, v / 16777216 % 256]

/-- Little-endian bytes of a signed 32-bit field (two's complement). -/
def le32i (v : Int) : List Nat := le32 (v % 4294967296).toNat

/-- Serialised `BITMAPFILEHEADER` (lines 206, 217-219): `bfType = 0x4D42`,
`bfSize`, two zero reserved words, `bfOffBits`; 14 bytes. -/
def bmpFileHeader (bfSize : Nat) : List Nat :=
  le16 0x4D42 ++ le32 bfSize ++ le16 0 ++ le16 0 ++ le32 bmpOffBits

/-- Serialised `BITMAPINFOHEADER` (lines 207-213): `biSize = 40`,
`biWidth = w`, `biHeight = -h` (top-down), `biPlanes = 1`,
`biBitCount = 24`, `biCompression = BI_RGB = 0`, remaining fields
zero-initialised; 40 bytes. -/
def bmpInfoHeader (w h : Nat) : List Nat :=
  le32 40 ++ le32i (Int.ofNat w) ++ le32i (-(Int.ofNat h)) ++ le16 1 ++ le16 24 ++
    le32 0 ++ le32 0 ++ le32i 0 ++ le32i 0 ++ le32 0 ++ le32 0

/-- One output row's pixel bytes (lines 231-242): for each `x`, the `B`,
`G`, `R` bytes of input pixel `(x, y)` — bytes `(y*w+x)*4 + 0/1/2` of the
BGRA buffer — with the alpha byte skipped. -/
def bmpRowPixels (bgra : List Nat) (w y : Nat) : List Nat :=
  (List.range w).flatMap fun x =>
    [bgra.getD ((y * w + x) * 4) 0, bgra.getD ((y * w + x) * 4 + 1) 0,
     bgra.getD ((y * w + x) * 4 + 2) 0]

/-- One full output row: pixel bytes followed by `pad` zero bytes
(lines 244-247). -/
def bmpRowBytes (bgra : List Nat) (w y : Nat) : List Nat :=
  bmpRowPixels bgra w y ++ List.replicate (bmpPad w) 0

/-- The pixel data section: rows `0..h-1` in order (top-down, matching
the negative `biHeight`). -/
def bmpPixelData (bgra : List Nat) (w h : Nat) : List Nat :=
  (List.range h).flatMap (bmpRowBytes bgra w)

/-- `BmpWriter::write` (lines 204-253) as the byte list a successful
write produces: file header (with `bfSize = bfOffBits + dataSize`), info
header, then the converted rows. -/
def BmpWriter.write (bgra : List Nat) (w h : Nat) : List Nat :=
  bmpFileHeader (bmpOffBits + bmpDataSize w h) ++ bmpInfoHeader w h ++ bmpPixelData bgra w h

/-- Read a 32-bit little-endian unsigned field back from four bytes. -/
def decodeU32 (b0 b1 b2 b3 : Nat) : Nat :=
  b0 + 256 * b1 + 65536 * b2 + 16777216 * b3

/-- Read a 32-bit little-endian signed (two's complement) field back
from four bytes. -/
def decodeI32 (b0 b1 b2 b3 : Nat) : Int :=
  let u := decodeU32 b0 b1 b2 b3
  if u < 2147483648 then (u : Int) else (u : Int) - 4294967296

/-- The character for a decimal digit value. -/
def digitChar (d : Nat) : Char := Char.ofNat (48 + d)

/-- Fuelled helper for `decDigits`; the fuel only drives structural
recursion and is irrelevant once it exceeds the value. -/
def decDigitsCore : Nat → Nat → List Char
  | 0, _ => []
  | fuel + 1, v =>
    if v < 10 then [digitChar v]
    else decDigitsCore fuel (v / 10) ++ [digitChar (v % 10)]

/-- The decimal digits of a natural number, most significant first
(the digit sequence `printf`'s `%d` family emits for a non-negative
value). -/
def decDigits (v : Nat) : List Char := decDigitsCore (v + 1) v

/-- `printf`-style `%0Nd` for a non-negative value: the decimal digits,
left-padded with zeros to at least `width` characters (more characters
when the value needs them). -/
def padDec (width v : Nat) : List Char :=
  List.replicate (width - (decDigits v).length) '0' ++ decDigits v

/-- Exactly `width` decimal digits of `v`, most significant first
(auxiliary reformulation of `padDec` used to compare equal-width
zero-padded fields positionally; meaningful for `v < 10 ^ width`). -/
def digitsFixed : Nat → Nat → List Char
  | 0, _ => []
  | width + 1, v => digitChar (v / 10 ^ width) :: digitsFixed width (v % 10 ^ width)

/-- The UTC wall-clock reading used to name one saved file, holding the
values the saver prints (lines 592-602): `tm_year + 1900`, `tm_mon + 1`,
`tm_mday`, `tm_hour`, `tm_min`, `tm_sec`, and the millisecond part of
the epoch time. -/
structure UtcTime where
  year : Nat
  month : Nat
  day : Nat
  hour : Nat
  minute : Nat
  sec : Nat
  ms : Nat
deriving DecidableEq, Repr

/-- The chronological comparison key of a wall-clock reading: its
components, most significant first.  For readings produced by `gmtime`
from a millisecond epoch count, the epoch order is the lexicographic
order of these keys. -/
def UtcTime.key (t : UtcTime) : List Nat :=
  [t.year, t.month, t.day, t.hour, t.minute, t.sec, t.ms]

/-- The saved file name (line 600), from the `swprintf` format
`"%04d-%02d-%02dT%02d-%02d-%02d.%03lldZ_%05d.bmp"`, as its character
list. -/
def fileName (t : UtcTime) (idx : Nat) : List Char :=
  padDec 4 t.year ++ ['-'] ++ padDec 2 t.month ++ ['-'] ++ padDec 2 t.day ++ ['T'] ++
    padDec 2 t.hour ++ ['-'] ++ padDec 2 t.minute ++ ['-'] ++ padDec 2 t.sec ++ ['.'] ++
    padDec 3 t.ms ++ ['Z', '_'] ++ padDec 5 idx ++ ['.', 'b', 'm', 'p']

/-- The names of the files a session saves, given the wall-clock readings
of its successive save ticks: the `k`-th save uses sequence number `k`
(`saveIdx` starts at 0 and is incremented once per saved file,
line 602). -/
def sessionNames (ts : List UtcTime) : List (List Char) :=
  ts.mapIdx fun k t => fileName t k

/-- `true` iff every printed component of the reading fits its
zero-padded field width (`gmtime` output always does: months 1-12,
days 1-31, hours 0-23, minutes 0-59, seconds 0-60, milliseconds 0-999;
years fit four digits until the year 10000). -/
def UtcTime.fitsWidths (t : UtcTime) : Bool :=
  t.year < 10000 && t.month < 100 && t.day < 100 && t.hour < 100 &&
    t.minute < 100 && t.sec < 100 && t.ms < 1000

/-- Boolean lexicographic strictly-less on component keys. -/
def keyLT : List Nat → List Nat → Bool
  | [], [] => false
  | [], _ :: _ => true
  | _ :: _, [] => false
  | a :: as, b :: bs => a < b || (a == b && keyLT as bs)

/-- Boolean lexicographic less-or-equal on component keys: the reading
order of two successive wall-clock samples when the clock does not jump
backwards. -/
def keyLE (k₁ k₂ : List Nat) : Bool := k₁ == k₂ || keyLT k₁ k₂


/-- Helper view of a zero-padded numeric field of the `swprintf` format:
width, value, and the literal separator that follows it. -/
def renderFields : List (Nat × Nat × List Char) → List Char
  | [] => []
  | (w, v, sep) :: rest => padDec w v ++ (sep ++ renderFields rest)

/-- The saved-file-name format as its field list: the seven zero-padded
timestamp components and the five-digit sequence number, each with its
following separator. -/
def nameFields (t : UtcTime) (idx : Nat) : List (Nat × Nat × List Char) :=
  [(4, t.year, ['-']), (2, t.month, ['-']), (2, t.day, ['T']), (2, t.hour, ['-']),
   (2, t.minute, ['-']), (2, t.sec, ['.']), (3, t.ms, ['Z', '_']),
   (5, idx, ['.', 'b', 'm', 'p'])]

/-! ### Concrete evaluations of the embedded definitions -/

example : (SharedFrame.init.update ⟨2, 1, [9, 9, 9, 9, 8, 8, 8, 8]⟩ true).state.tex
    = some ⟨2, 1, [9, 9, 9, 9, 8, 8, 8, 8]⟩ := by decide

example : (SharedFrame.init.update ⟨2, 1, [1]⟩ false).state = SharedFrame.init := by decide

example : (BmpWriter.write [1, 2, 3, 4] 1 1).length = 58 := by decide
example : BmpWriter.write [1, 2, 3, 4] 1 1 =
    [66, 77, 58, 0, 0, 0, 0, 0, 0, 0, 54, 0, 0, 0] ++
    [40, 0, 0, 0, 1, 0, 0, 0, 255, 255, 255, 255, 1, 0, 24, 0,
     0, 0, 0, 0, 0, 0, 0, 0, 0, 0, 0, 0, 0, 0, 0, 0, 0, 0, 0, 0, 0, 0, 0, 0] ++
    [1, 2, 3, 0] := by decide

example : fileName ⟨2024, 3, 7, 15, 4, 5, 42⟩ 13 =
    "2024-03-07T15-04-05.042Z_00013.bmp".data := by decide
example : keyLE [2024, 3, 7] [2024, 3, 8] = true := by decide

/-! ### List-chunk and BMP-length lemmas -/

theorem flatMap_range_length {α : Type} (g : Nat → List α) (L n : Nat)
    (hg : ∀ i, (g i).length = L) : ((List.range n).flatMap g).length = n * L := by
  rw [List.length_flatMap]
  have hmap : (List.range n).map (List.length ∘ g) = List.replicate n L := by
    refine List.eq_replicate_iff.mpr ⟨by simp, ?_⟩
    intro b hb
    rcases List.mem_map.mp hb with ⟨a, _, rfl⟩
    exact hg a
  rw [hmap, List.sum_const_nat]

theorem flatMap_range_chunk {α : Type} (g : Nat → List α) (L n y : Nat)
    (hg : ∀ i, (g i).length = L) (hy : y < n) :
    (((List.range n).flatMap g).drop (L * y)).take L = g y := by
  have hn : n = y + (n - y) := by omega
  rw [hn, List.range_add, List.flatMap_append, List.flatMap_map]
  have hfirst : ((List.range y).flatMap g).length = L * y := by
    rw [flatMap_range_length g L y hg, Nat.mul_comm]
  rw [List.drop_left' hfirst]
  have hk : n - y = (n - y - 1) + 1 := by omega
  rw [hk, List.range_succ_eq_map]
  simp only [List.flatMap_cons]
  rw [List.take_left' (hg (y + 0))]
  norm_num

theorem bmpRowPixels_length (bgra : List Nat) (w y : Nat) :
    (bmpRowPixels bgra w y).length = bmpStride w :=
  flatMap_range_length _ 3 w fun _ => rfl

theorem bmpRowBytes_length (bgra : List Nat) (w y : Nat) :
    (bmpRowBytes bgra w y).length = bmpStride w + bmpPad w := by
  rw [bmpRowBytes, List.length_append, bmpRowPixels_length, List.length_replicate]

theorem bmpPixelData_length (bgra : List Nat) (w h : Nat) :
    (bmpPixelData bgra w h).length = h * (bmpStride w + bmpPad w) :=
  flatMap_range_length _ _ h fun i => bmpRowBytes_length bgra w i

theorem bmpWrite_length (bgra : List Nat) (w h : Nat) :
    (BmpWriter.write bgra w h).length = 54 + bmpDataSize w h := by
  rw [BmpWriter.write, List.length_append, List.length_append, bmpPixelData_length,
    show (bmpFileHeader (bmpOffBits + bmpDataSize w h)).length = 14 from rfl,
    show (bmpInfoHeader w h).length = 40 from rfl, bmpDataSize,
    Nat.mul_comm (bmpStride w + bmpPad w) h]

theorem bmpPad_eq (w : Nat) : bmpPad w = (4 - 3 * w % 4) % 4 := by
  simp [bmpPad, bmpStride, Nat.mul_comm w 3]

theorem stridePad_eq (w : Nat) :
    bmpStride w + bmpPad w = 3 * w + (4 - 3 * w % 4) % 4 := by
  simp [bmpStride, bmpPad, Nat.mul_comm w 3]

theorem bmpDataSize_eq (w h : Nat) :
    bmpDataSize w h = (3 * w + (4 - 3 * w % 4) % 4) * h := by
  rw [bmpDataSize, stridePad_eq]

/-! ### Session-machine lemmas -/

theorem runSession_cons (st : CaptureState) (e : SessEvent) (evs : List SessEvent) :
    runSession st (e :: evs) = runSession (stepEvent st e) evs := rfl

theorem runSession_append (st : CaptureState) (evs₁ evs₂ : List SessEvent) :
    runSession st (evs₁ ++ evs₂) = runSession (runSession st evs₁) evs₂ := by
  simp [runSession]

theorem stepEvent_arrive_some (st : CaptureState) (f : Texture) (ok : Bool)
    (h : st.running = true) :
    stepEvent st (.frameArrive (some f) ok)
      = { st with frameEvents := st.frameEvents + 1,
                  shared := (st.shared.update f ok).state } := by
  simp [stepEvent, h]

theorem stepEvent_tick_none (st : CaptureState) (t : Nat) (h : st.running = true)
    (hfe : st.frameEvents = 0) (htex : st.shared.tex = none) :
    stepEvent st (.tick t)
      = if 2000 < t then { st with stallLogs := st.stallLogs ++ [t] } else st := by
  by_cases h2 : 2000 < t <;>
    simp [stepEvent, h, hfe, h2, SharedFrame.snapshot, htex]

theorem stepEvent_tick_some (st : CaptureState) (t : Nat) (tx : Texture)
    (h : st.running = true) (hfe : st.frameEvents ≠ 0) (htex : st.shared.tex = some tx) :
    stepEvent st (.tick t)
      = { st with files := st.files ++ [tx], saveIdx := st.saveIdx + 1 } := by
  simp [stepEvent, h, hfe, SharedFrame.snapshot, htex]

/-- Delivering a run of frames of one fixed size `W × H` into a slot
already holding a `W × H` texture repeatedly overwrites that texture in
place: the slot ends with the last delivered frame's bytes (or the
previous bytes if the run is empty), the event counter advances once per
frame, and nothing else changes. -/
theorem runSession_arrivals (W H : Nat) (frames : List Texture) (st : CaptureState)
    (d : List Nat)
    (hdims : ∀ f ∈ frames, f.w = W ∧ f.h = H)
    (hr : st.running = true)
    (hsh : st.shared = ⟨some ⟨W, H, d⟩, W, H⟩) :
    runSession st (frames.map fun f => SessEvent.frameArrive (some f) true)
      = { st with shared := ⟨some ⟨W, H, (frames.map Texture.data).getLastD d⟩, W, H⟩,
                  frameEvents := st.frameEvents + frames.length } := by
  induction frames generalizing st d with
  | nil =>
    simp [runSession, ← hsh]
  | cons g gs ih =>
    have hg := hdims g (by simp)
    rw [List.map_cons, runSession_cons, stepEvent_arrive_some _ _ _ hr]
    have hupd : (st.shared.update g true).state = ⟨some ⟨W, H, g.data⟩, W, H⟩ := by
      rw [hsh]
      simp [SharedFrame.update, hg.1, hg.2, copyResource]
    rw [hupd]
    rw [ih _ g.data (fun f hf => hdims f (by simp [hf])) (by simp [hr]) rfl]
    rw [List.map_cons, List.getLastD_cons, List.length_cons]
    have harith : st.frameEvents + 1 + gs.length = st.frameEvents + (gs.length + 1) := by
      omega
    rw [harith]

/-- A session in which the pool never yields a frame and the running
flag is never cleared leaves the state untouched except for the stall
log, which records exactly the ticks whose elapsed time exceeds
2000 ms. -/
theorem runSession_no_frames (evs : List SessEvent) (st : CaptureState)
    (hnd : ∀ e ∈ evs, e.isFrameDelivery = false)
    (hns : ∀ e ∈ evs, e.isStop = false)
    (hr : st.running = true) (hfe : st.frameEvents = 0) (htex : st.shared.tex = none) :
    runSession st evs
      = { st with stallLogs := st.stallLogs ++ evs.filterMap fun e =>
            match e with
            | SessEvent.tick t => if 2000 < t then some t else none
            | _ => none } := by
  induction evs generalizing st with
  | nil => simp [runSession]
  | cons e es ih =>
    have hndt : ∀ x ∈ es, x.isFrameDelivery = false := fun x hx => hnd x (by simp [hx])
    have hnst : ∀ x ∈ es, x.isStop = false := fun x hx => hns x (by simp [hx])
    cases e with
    | frameArrive got ok =>
      cases got with
      | none =>
        rw [runSession_cons]
        have hstep : stepEvent st (.frameArrive none ok) = st := by
          simp [stepEvent, hr]
        rw [hstep, ih st hndt hnst hr hfe htex]
        simp [List.filterMap_cons]
      | some f =>
        have := hnd _ (List.mem_cons_self ..)
        simp [SessEvent.isFrameDelivery] at this
    | stopRunning =>
      have := hns _ (List.mem_cons_self ..)
      simp [SessEvent.isStop] at this
    | tick t =>
      rw [runSession_cons, stepEvent_tick_none st t hr hfe htex]
      by_cases h2 : 2000 < t
      · rw [if_pos h2,
          ih { st with stallLogs := st.stallLogs ++ [t] } hndt hnst hr hfe htex]
        simp [List.filterMap_cons, h2]
      · rw [if_neg h2, ih st hndt hnst hr hfe htex]
        simp [List.filterMap_cons, h2]

/-- The claim-C9 invariant of the shared slot: whenever a texture is
present, the separately stored dimensions equal the texture's own
dimensions and are positive. -/
def SharedInv (s : SharedFrame) : Prop :=
  ∀ t, s.tex = some t → t.w = s.w ∧ t.h = s.h ∧ 0 < t.w ∧ 0 < t.h

theorem update_inv (s : SharedFrame) (f : Texture) (ok : Bool)
    (hs : SharedInv s) (hw : 0 < f.w) (hh : 0 < f.h) :
    SharedInv (s.update f ok).state := by
  unfold SharedFrame.update
  by_cases hb : (s.tex.isNone || s.w != f.w || s.h != f.h) = true
  · rw [if_pos hb]
    cases ok with
    | true =>
      intro t ht
      simp [copyResource, allocTexture] at ht ⊢
      simp [← ht, hw, hh]
    | false => exact hs
  · rw [if_neg hb]
    intro t ht
    simp only [Option.map_eq_some'] at ht
    rcases ht with ⟨t₀, ht₀, rfl⟩
    rcases hs t₀ ht₀ with ⟨h1, h2, h3, h4⟩
    exact ⟨h1, h2, h3, h4⟩

theorem update_tex_none (s : SharedFrame) (f : Texture) (ok : Bool)
    (h : (s.update f ok).state.tex = none) : s.tex = none := by
  unfold SharedFrame.update at h
  by_cases hb : (s.tex.isNone || s.w != f.w || s.h != f.h) = true
  · rw [if_pos hb] at h
    cases ok with
    | true => simp at h
    | false => exact h
  · rw [if_neg hb] at h
    simp only [Option.map_eq_none'] at h
    exact h

theorem update_tex_some_of_allocOk (s : SharedFrame) (f : Texture) :
    (s.update f true).state.tex ≠ none := by
  unfold SharedFrame.update
  by_cases hb : (s.tex.isNone || s.w != f.w || s.h != f.h) = true
  · rw [if_pos hb]; simp
  · rw [if_neg hb]
    intro hcon
    simp only [Option.map_eq_none'] at hcon
    simp [hcon] at hb

theorem stepEvent_tick_shared (st : CaptureState) (t : Nat) :
    (stepEvent st (SessEvent.tick t)).shared = st.shared := by
  by_cases hr : st.running = false
  · simp [stepEvent, hr]
  · by_cases hc : st.frameEvents = 0 ∧ 2000 < t <;>
      rcases hsn : st.shared.snapshot with _ | ⟨tx, w, h⟩ <;>
        simp [stepEvent, hr, hc, hsn]

theorem stepEvent_running_of_not_stop (st : CaptureState) (e : SessEvent)
    (h : e.isStop = false) : (stepEvent st e).running = st.running := by
  cases e with
  | stopRunning => simp [SessEvent.isStop] at h
  | frameArrive got ok =>
    by_cases hr : st.running = false
    · simp [stepEvent, hr]
    · cases got <;> simp [stepEvent, hr]
  | tick t =>
    by_cases hr : st.running = false
    · simp [stepEvent, hr]
    · by_cases hc : st.frameEvents = 0 ∧ 2000 < t <;>
        rcases hsn : st.shared.snapshot with _ | ⟨tx, w, h⟩ <;>
          simp [stepEvent, hr, hc, hsn]

theorem stepEvent_inv (st : CaptureState) (e : SessEvent)
    (hpos : e.framePositive = true) (hs : SharedInv st.shared) :
    SharedInv (stepEvent st e).shared := by
  cases e with
  | stopRunning => exact hs
  | tick t => rw [stepEvent_tick_shared]; exact hs
  | frameArrive got ok =>
    by_cases hr : st.running = false
    · simp only [stepEvent, hr, if_pos]
      simpa using hs
    · cases got with
      | none => simp only [stepEvent, hr, if_neg]; simpa using hs
      | some f =>
        simp only [SessEvent.framePositive, Bool.and_eq_true, bne_iff_ne] at hpos
        have hst : (stepEvent st (SessEvent.frameArrive (some f) ok)).shared
            = (st.shared.update f ok).state := by
          simp [stepEvent, hr]
        rw [hst]
        exact update_inv st.shared f ok hs (Nat.pos_of_ne_zero hpos.1)
          (Nat.pos_of_ne_zero hpos.2)

theorem runSession_inv (evs : List SessEvent) (st : CaptureState)
    (hpos : ∀ e ∈ evs, e.framePositive = true) (hs : SharedInv st.shared) :
    SharedInv (runSession st evs).shared := by
  induction evs generalizing st with
  | nil => exact hs
  | cons e es ih =>
    rw [runSession_cons]
    exact ih _ (fun x hx => hpos x (by simp [hx]))
      (stepEvent_inv st e (hpos e (by simp)) hs)

theorem runSession_tex_none_rev (evs : List SessEvent) (st : CaptureState)
    (h : (runSession st evs).shared.tex = none) : st.shared.tex = none := by
  induction evs generalizing st with
  | nil => exact h
  | cons e es ih =>
    rw [runSession_cons] at h
    have h' := ih _ h
    cases e with
    | stopRunning => exact h'
    | tick t => rwa [stepEvent_tick_shared] at h'
    | frameArrive got ok =>
      by_cases hr : st.running = false
      · simpa [stepEvent, hr] using h'
      · cases got with
        | none => simpa [stepEvent, hr] using h'
        | some f =>
          have hst : (stepEvent st (SessEvent.frameArrive (some f) ok)).shared
              = (st.shared.update f ok).state := by
            simp [stepEvent, hr]
          rw [hst] at h'
          exact update_tex_none _ _ _ h'

theorem runSession_tex_none_of_no_alloc (evs : List SessEvent) (st : CaptureState)
    (h : ∀ e ∈ evs, e.isDeliveryWithAlloc = false)
    (h0 : st.shared.tex = none) : (runSession st evs).shared.tex = none := by
  induction evs generalizing st with
  | nil => exact h0
  | cons e es ih =>
    rw [runSession_cons]
    refine ih _ (fun x hx => h x (by simp [hx])) ?_
    cases e with
    | stopRunning => exact h0
    | tick t => rwa [stepEvent_tick_shared]
    | frameArrive got ok =>
      by_cases hr : st.running = false
      · simpa [stepEvent, hr] using h0
      · cases got with
        | none => simpa [stepEvent, hr] using h0
        | some f =>
          have hok : ok = false := by
            have := h _ (List.mem_cons_self ..)
            cases ok with
            | true => simp [SessEvent.isDeliveryWithAlloc] at this
            | false => rfl
          subst hok
          have hst : (stepEvent st (SessEvent.frameArrive (some f) false)).shared
              = (st.shared.update f false).state := by
            simp [stepEvent, hr]
          rw [hst]
          unfold SharedFrame.update
          have hb : (st.shared.tex.isNone || st.shared.w != f.w || st.shared.h != f.h)
              = true := by
            simp [h0]
          rw [if_pos hb]
          exact h0

theorem runSession_tex_some_of_alloc (evs : List SessEvent) (st : CaptureState)
    (hns : ∀ e ∈ evs, e.isStop = false) (hr : st.running = true)
    (hmem : ∃ f, SessEvent.frameArrive (some f) true ∈ evs) :
    (runSession st evs).shared.tex ≠ none := by
  induction evs generalizing st with
  | nil => simp at hmem
  | cons e es ih =>
    rcases hmem with ⟨f, hf⟩
    rw [runSession_cons]
    rcases List.mem_cons.mp hf with heq | hmem'
    · subst heq
      intro hcon
      have h' := runSession_tex_none_rev es _ hcon
      have hst : (stepEvent st (SessEvent.frameArrive (some f) true)).shared
          = (st.shared.update f true).state := by
        simp [stepEvent, hr]
      rw [hst] at h'
      exact update_tex_some_of_allocOk st.shared f h'
    · have hrun : (stepEvent st e).running = true := by
        rw [stepEvent_running_of_not_stop st e (hns e (by simp))]
        exact hr
      exact ih _ (fun x hx => hns x (by simp [hx])) hrun ⟨f, hmem'⟩

theorem getLastD_map_data (g : Texture) (gs : List Texture) :
    (gs.map Texture.data).getLastD g.data = ((g :: gs).getLast (by simp)).data := by
  cases gs with
  | nil => simp
  | cons a l =>
    rw [List.getLastD_eq_getLast?, List.getLast?_map,
      List.getLast?_eq_getLast (a :: l) (by simp)]
    simp [List.getLast_cons]

/-! ### Claim C9 (shared slot invariant) -/

/-- Claim C9: invariant of the Shared Frame Buffer kept by every update
and snapshot, over any session trace whose delivered frames have
positive dimensions and whose running flag stays set: initially the
texture is null and the stored dimensions are 0; the texture is non-null
exactly when some delivered frame's allocation has succeeded, and once
non-null it never returns to null; whenever the texture is non-null the
stored width and height equal the texture's dimensions and are positive;
and a snapshot then returns that texture together with exactly those
dimensions. -/
theorem sharedFrame_slot_invariant (evs : List SessEvent)
    (hpos : ∀ e ∈ evs, e.framePositive = true)
    (hns : ∀ e ∈ evs, e.isStop = false) :
    CaptureState.init.shared = ⟨none, 0, 0⟩
    ∧ (∀ t, (runSession CaptureState.init evs).shared.tex = some t →
        t.w = (runSession CaptureState.init evs).shared.w
        ∧ t.h = (runSession CaptureState.init evs).shared.h
        ∧ 0 < t.w ∧ 0 < t.h)
    ∧ ((runSession CaptureState.init evs).shared.tex ≠ none
        ↔ ∃ f, SessEvent.frameArrive (some f) true ∈ evs)
    ∧ (∀ evs', (runSession CaptureState.init evs).shared.tex ≠ none →
        (runSession CaptureState.init (evs ++ evs')).shared.tex ≠ none)
    ∧ (∀ t, (runSession CaptureState.init evs).shared.tex = some t →
        (runSession CaptureState.init evs).shared.snapshot
          = some (t, (runSession CaptureState.init evs).shared.w,
              (runSession CaptureState.init evs).shared.h)) := by
  refine ⟨rfl, ?_, ⟨?_, ?_⟩, ?_, ?_⟩
  · exact runSession_inv evs CaptureState.init hpos
      (fun t ht => by simp [CaptureState.init, SharedFrame.init] at ht)
  · intro h
    by_contra hno
    push_neg at hno
    have hall : ∀ e ∈ evs, e.isDeliveryWithAlloc = false := by
      intro e he
      cases e with
      | stopRunning => rfl
      | tick t => rfl
      | frameArrive got ok =>
        cases got with
        | none => rfl
        | some f =>
          cases ok with
          | true => exact absurd he (hno f)
          | false => rfl
    exact h (runSession_tex_none_of_no_alloc evs CaptureState.init hall rfl)
  · rintro ⟨f, hf⟩
    exact runSession_tex_some_of_alloc evs CaptureState.init hns rfl ⟨f, hf⟩
  · intro evs' h
    rw [runSession_append]
    intro hcon
    exact h (runSession_tex_none_rev evs' _ hcon)
  · intro t ht
    simp [SharedFrame.snapshot, ht]

/-- Witness for `sharedFrame_slot_invariant`: one delivered 1×1 frame
with a successful allocation. -/
theorem sharedFrame_slot_invariant_witness :
    CaptureState.init.shared = ⟨none, 0, 0⟩
    ∧ (∀ t, (runSession CaptureState.init
          [SessEvent.frameArrive (some ⟨1, 1, [7, 7, 7, 255]⟩) true]).shared.tex = some t →
        t.w = (runSession CaptureState.init
            [SessEvent.frameArrive (some ⟨1, 1, [7, 7, 7, 255]⟩) true]).shared.w
        ∧ t.h = (runSession CaptureState.init
            [SessEvent.frameArrive (some ⟨1, 1, [7, 7, 7, 255]⟩) true]).shared.h
        ∧ 0 < t.w ∧ 0 < t.h)
    ∧ ((runSession CaptureState.init
          [SessEvent.frameArrive (some ⟨1, 1, [7, 7, 7, 255]⟩) true]).shared.tex ≠ none
        ↔ ∃ f, SessEvent.frameArrive (some f) true
            ∈ [SessEvent.frameArrive (some ⟨1, 1, [7, 7, 7, 255]⟩) true])
    ∧ (∀ evs', (runSession CaptureState.init
          [SessEvent.frameArrive (some ⟨1, 1, [7, 7, 7, 255]⟩) true]).shared.tex ≠ none →
        (runSession CaptureState.init
          ([SessEvent.frameArrive (some ⟨1, 1, [7, 7, 7, 255]⟩) true] ++ evs')).shared.tex
            ≠ none)
    ∧ (∀ t, (runSession CaptureState.init
          [SessEvent.frameArrive (some ⟨1, 1, [7, 7, 7, 255]⟩) true]).shared.tex = some t →
        (runSession CaptureState.init
            [SessEvent.frameArrive (some ⟨1, 1, [7, 7, 7, 255]⟩) true]).shared.snapshot
          = some (t, (runSession CaptureState.init
                [SessEvent.frameArrive (some ⟨1, 1, [7, 7, 7, 255]⟩) true]).shared.w,
              (runSession CaptureState.init
                [SessEvent.frameArrive (some ⟨1, 1, [7, 7, 7, 255]⟩) true]).shared.h)) :=
  sharedFrame_slot_invariant [SessEvent.frameArrive (some ⟨1, 1, [7, 7, 7, 255]⟩) true]
    (by decide) (by decide)

/-! ### Claim C1 (saver tick saves the latest frame) -/

/-- Claim C1: if a non-empty sequence of frames of identical dimensions
is delivered to the Frame Ingest Callback (each completing its update)
and the Periodic Saver then runs one tick, exactly one file is written
for that tick and its pixel content is that of the last delivered frame,
never an earlier one: the snapshot taken under the lock is the most
recently completed update. -/
theorem saver_tick_saves_latest (W H : Nat) (frames : List Texture) (elapsed : Nat)
    (hne : frames ≠ [])
    (hdims : ∀ f ∈ frames, f.w = W ∧ f.h = H) :
    (runSession CaptureState.init
        ((frames.map fun f => SessEvent.frameArrive (some f) true)
          ++ [SessEvent.tick elapsed])).files
      = [frames.getLast hne]
    ∧ (runSession CaptureState.init
        ((frames.map fun f => SessEvent.frameArrive (some f) true)
          ++ [SessEvent.tick elapsed])).saveIdx = 1 := by
  rcases frames with _ | ⟨g, gs⟩
  · exact absurd rfl hne
  · have hg := hdims g (by simp)
    have hstep1 : stepEvent CaptureState.init (SessEvent.frameArrive (some g) true)
        = ⟨⟨some ⟨W, H, g.data⟩, W, H⟩, true, 1, [], [], 0⟩ := by
      rw [stepEvent_arrive_some _ _ _ rfl]
      simp [CaptureState.init, SharedFrame.init, SharedFrame.update, copyResource,
        allocTexture, hg.1, hg.2]
    rw [List.map_cons, runSession_append,
      runSession_cons CaptureState.init (SessEvent.frameArrive (some g) true), hstep1,
      runSession_arrivals W H gs _ g.data (fun f hf => hdims f (by simp [hf])) rfl rfl]
    rw [show ∀ st, runSession st [SessEvent.tick elapsed] = stepEvent st (SessEvent.tick elapsed)
        from fun _ => rfl]
    rw [stepEvent_tick_some _ elapsed ⟨W, H, (gs.map Texture.data).getLastD g.data⟩ rfl
      (by simp) rfl]
    refine ⟨?_, rfl⟩
    have hmem : (g :: gs).getLast (by simp) ∈ g :: gs := List.getLast_mem _
    have hl := hdims _ hmem
    have : (⟨W, H, (gs.map Texture.data).getLastD g.data⟩ : Texture)
        = (g :: gs).getLast (by simp) := by
      rw [getLastD_map_data g gs, ← hl.1, ← hl.2]
    rw [this]
    rfl

/-- Witness for `saver_tick_saves_latest`: two 1×1 frames arrive, the
saver ticks once; one file is saved and it holds the second frame's
bytes. -/
theorem saver_tick_saves_latest_witness :
    (runSession CaptureState.init
        ((([⟨1, 1, [1, 2, 3, 4]⟩, ⟨1, 1, [5, 6, 7, 8]⟩] : List Texture).map
            fun f => SessEvent.frameArrive (some f) true)
          ++ [SessEvent.tick 500])).files
      = [(⟨1, 1, [5, 6, 7, 8]⟩ : Texture)]
    ∧ (runSession CaptureState.init
        ((([⟨1, 1, [1, 2, 3, 4]⟩, ⟨1, 1, [5, 6, 7, 8]⟩] : List Texture).map
            fun f => SessEvent.frameArrive (some f) true)
          ++ [SessEvent.tick 500])).saveIdx = 1 :=
  saver_tick_saves_latest 1 1 [⟨1, 1, [1, 2, 3, 4]⟩, ⟨1, 1, [5, 6, 7, 8]⟩] 500
    (by decide) (by decide)

/-! ### Claim C6 (zero frames: zero files, stall diagnostic) -/

/-- Claim C6: in every session in which the `FrameEventCounter` stays
zero (the pool never delivers a frame) and the running flag stays set,
the Saver writes zero files — every tick skips because no snapshot is
available — and the stall diagnostic is emitted exactly at the ticks
whose elapsed time since session start exceeds 2000 ms. -/
theorem zero_frames_zero_files (evs : List SessEvent)
    (hnd : ∀ e ∈ evs, e.isFrameDelivery = false)
    (hns : ∀ e ∈ evs, e.isStop = false) :
    (runSession CaptureState.init evs).files = []
    ∧ (runSession CaptureState.init evs).frameEvents = 0
    ∧ (runSession CaptureState.init evs).stallLogs
        = evs.filterMap fun e =>
            match e with
            | SessEvent.tick t => if 2000 < t then some t else none
            | _ => none := by
  rw [runSession_no_frames evs CaptureState.init hnd hns rfl rfl rfl]
  exact ⟨rfl, rfl, rfl⟩

/-- Witness for `zero_frames_zero_files`: a spurious empty pool signal
and two ticks, at 1500 ms and 2500 ms; no file is written and only the
2500 ms tick logs the stall. -/
theorem zero_frames_zero_files_witness :
    (runSession CaptureState.init
        [SessEvent.frameArrive none true, SessEvent.tick 1500, SessEvent.tick 2500]).files = []
    ∧ (runSession CaptureState.init
        [SessEvent.frameArrive none true, SessEvent.tick 1500,
          SessEvent.tick 2500]).frameEvents = 0
    ∧ (runSession CaptureState.init
        [SessEvent.frameArrive none true, SessEvent.tick 1500,
          SessEvent.tick 2500]).stallLogs
        = [SessEvent.frameArrive none true, SessEvent.tick 1500,
            SessEvent.tick 2500].filterMap fun e =>
              match e with
              | SessEvent.tick t => if 2000 < t then some t else none
              | _ => none :=
  zero_frames_zero_files
    [SessEvent.frameArrive none true, SessEvent.tick 1500, SessEvent.tick 2500]
    (by decide) (by decide)

/-! ### Claim C2 (teardown order) -/

/-- Claim C2 counterexample: the normal-teardown claim fails on the code.
The claim (and spec §5) puts the release of the process handle last; in
`main` (lines 639-646) `CloseHandle(hProc)` is the FIRST teardown step,
before the running flag is cleared, and the final step is joining the
saver thread. -/
theorem teardown_handle_not_last :
    (normalTeardown == specTeardownOrder) = false
    ∧ normalTeardown.head? = some TeardownStep.closeProcessHandle
    ∧ normalTeardown.getLast? = some TeardownStep.joinSaver := by decide

/-- Claim C2 (amended): in every normal session teardown the supervisor
releases the process handle first, then clears the running flag,
unregisters the Ingest Callback, closes the capture session, closes the
frame pool, stops the Saver, and joins its thread — in that order — and
by the end every session resource is released, so the saver thread
object is safe to destroy. -/
theorem teardown_order_normal :
    allReleased (runTeardown allHeld normalTeardown) = true
    ∧ normalTeardown.indexOf TeardownStep.closeProcessHandle
        < normalTeardown.indexOf TeardownStep.clearRunning
    ∧ normalTeardown.indexOf TeardownStep.clearRunning
        < normalTeardown.indexOf TeardownStep.revokeCallback
    ∧ normalTeardown.indexOf TeardownStep.revokeCallback
        < normalTeardown.indexOf TeardownStep.closeSession
    ∧ normalTeardown.indexOf TeardownStep.closeSession
        < normalTeardown.indexOf TeardownStep.closePool
    ∧ normalTeardown.indexOf TeardownStep.closePool
        < normalTeardown.indexOf TeardownStep.clearSaverRun
    ∧ normalTeardown.indexOf TeardownStep.clearSaverRun
        < normalTeardown.indexOf TeardownStep.joinSaver
    ∧ threadDestructorTerminates normalTeardown = false := by decide

/-! ### Claim C3 (open-process failure path) -/

/-- Claim C3 is right about the intent and the code is wrong: when
`OpenProcess` fails after the session was started (lines 609-617), the
code revokes the callback and closes the pool and session, but it never
clears `running` or `saverRun` and never joins the saver thread before
`continue` destroys the still-joinable `std::thread` object — which
calls `std::terminate`, so the path is fatal rather than a clean restart. -/
theorem open_proc_fail_skips_saver_teardown :
    (openProcFailTeardown.contains TeardownStep.joinSaver) = false
    ∧ (openProcFailTeardown.contains TeardownStep.clearSaverRun) = false
    ∧ (openProcFailTeardown.contains TeardownStep.clearRunning) = false
    ∧ threadDestructorTerminates openProcFailTeardown = true
    ∧ allReleased (runTeardown allHeld openProcFailTeardown) = false
    ∧ threadDestructorTerminates normalTeardown = false := by decide

/-! ### Claim C8 (ingest callback effects) -/

/-- Claim C8 counterexample: the claim that the Frame Ingest Callback
performs no disk I/O fails on the code.  On the ordinary
frame-delivered path the effect trace contains `diskLogWrite`: the
callback calls `logf("frame_event ...")` (line 514), and `log_line`
opens, appends to and closes `capture.log` (lines 49-84). -/
theorem frameIngest_writes_disk :
    ((frameArrivedEffects true true true true false true).contains
      CallbackEffect.diskLogWrite) = true
    ∧ ((frameArrivedEffects true true true true false true).all
        (fun e => specAllowedCallbackEffects.contains e)) = false := by decide

/-- Claim C8 (amended): for every invocation of the Frame Ingest
Callback, its only effects are (at most) a frame-pool retrieval, an
atomic counter increment, COM interface queries, a descriptor read, a
lock acquisition, a GPU allocation when needed, a GPU-side copy — and
diagnostic log appends to the capture log on disk: exactly one per
retrieved frame, plus exactly one more (inside the lock) when the shared
texture is (re)allocated.  The pool retrieval and the lock acquisition
each happen at most once. -/
theorem frameIngest_effects_bounded :
    ∀ running gotFrame qiOk giOk needAlloc allocOk : Bool,
      ((frameArrivedEffects running gotFrame qiOk giOk needAlloc allocOk).all
        fun e => specAllowedCallbackEffects.contains e || e == CallbackEffect.diskLogWrite) = true
      ∧ (frameArrivedEffects running gotFrame qiOk giOk needAlloc allocOk).count
          CallbackEffect.diskLogWrite
          = (if running && gotFrame then 1 else 0)
            + (if running && gotFrame && qiOk && giOk && needAlloc && allocOk then 1 else 0)
      ∧ (frameArrivedEffects running gotFrame qiOk giOk needAlloc allocOk).count
          CallbackEffect.lockAcquire ≤ 1
      ∧ (frameArrivedEffects running gotFrame qiOk giOk needAlloc allocOk).count
          CallbackEffect.poolTryGetFrame ≤ 1 := by decide

/-! ### Claim C4 (atomic file writer) -/

/-- Claim C4: on every save tick that reaches the write stage, the image
is first written to the temporary path `outPath + ".pending"`; on write
success it is renamed onto the final path, and if that rename fails the
destination is removed and the rename retried exactly once; on write
failure the tick is abandoned with no rename attempted (and no path of
`save_staging_to_file` aborts the process — the embedding is total). -/
theorem save_tick_atomic_protocol (outPath : String) (writeOk renameOk : Bool) :
    (save_staging_to_file outPath true true writeOk renameOk).head?
        = some (FileOp.writeImage (outPath ++ ".pending"))
    ∧ (save_staging_to_file outPath true true writeOk renameOk).countP
          (FileOp.isRenameTo outPath)
        = (if writeOk then if renameOk then 1 else 2 else 0)
    ∧ (save_staging_to_file outPath true true writeOk renameOk).countP FileOp.isRemove
        = (if writeOk && !renameOk then 1 else 0)
    ∧ (writeOk = false →
        save_staging_to_file outPath true true writeOk renameOk
          = [FileOp.writeImage (outPath ++ ".pending")])
    ∧ (writeOk = true → renameOk = false →
        save_staging_to_file outPath true true writeOk renameOk
          = [FileOp.writeImage (outPath ++ ".pending"),
             FileOp.renameFile (outPath ++ ".pending") outPath,
             FileOp.removeFile outPath,
             FileOp.renameFile (outPath ++ ".pending") outPath])
    ∧ (writeOk = true → renameOk = true →
        save_staging_to_file outPath true true writeOk renameOk
          = [FileOp.writeImage (outPath ++ ".pending"),
             FileOp.renameFile (outPath ++ ".pending") outPath]) := by
  cases writeOk <;> cases renameOk <;>
    simp [save_staging_to_file, FileOp.isRenameTo, FileOp.isRemove]

/-- Witness for `save_tick_atomic_protocol` at a concrete path with a
failing first rename. -/
theorem save_tick_atomic_protocol_witness :
    (save_staging_to_file "frame.bmp" true true true false).head?
        = some (FileOp.writeImage ("frame.bmp" ++ ".pending"))
    ∧ (save_staging_to_file "frame.bmp" true true true false).countP
          (FileOp.isRenameTo "frame.bmp") = (if true then if false then 1 else 2 else 0)
    ∧ (save_staging_to_file "frame.bmp" true true true false).countP FileOp.isRemove
        = (if true && !false then 1 else 0)
    ∧ ((true : Bool) = false →
        save_staging_to_file "frame.bmp" true true true false
          = [FileOp.writeImage ("frame.bmp" ++ ".pending")])
    ∧ ((true : Bool) = true → (false : Bool) = false →
        save_staging_to_file "frame.bmp" true true true false
          = [FileOp.writeImage ("frame.bmp" ++ ".pending"),
             FileOp.renameFile ("frame.bmp" ++ ".pending") "frame.bmp",
             FileOp.removeFile "frame.bmp",
             FileOp.renameFile ("frame.bmp" ++ ".pending") "frame.bmp"])
    ∧ ((true : Bool) = true → (false : Bool) = true →
        save_staging_to_file "frame.bmp" true true true false
          = [FileOp.writeImage ("frame.bmp" ++ ".pending"),
             FileOp.renameFile ("frame.bmp" ++ ".pending") "frame.bmp"]) :=
  save_tick_atomic_protocol "frame.bmp" true false

/-! ### Claim C7 (shared buffer update) -/

/-- Claim C7: for every call to the Shared Frame Buffer's update, a new
texture allocation is attempted exactly when no texture exists yet or
the stored dimensions differ from the incoming frame's; if the
allocation fails the update returns leaving the state unchanged with no
copy performed (and no error propagates — the embedding returns
normally in every case); otherwise the incoming frame's bytes are
copied into the buffer and the stored dimensions match the incoming
frame. -/
theorem sharedFrame_update_spec (s : SharedFrame) (f : Texture) (allocOk : Bool) :
    ((s.update f allocOk).allocAttempted = true
        ↔ (s.tex = none ∨ s.w ≠ f.w ∨ s.h ≠ f.h))
    ∧ ((s.tex = none ∨ s.w ≠ f.w ∨ s.h ≠ f.h) → allocOk = false →
        (s.update f allocOk).state = s ∧ (s.update f allocOk).copied = false)
    ∧ ((s.update f allocOk).copied = false
        ↔ ((s.tex = none ∨ s.w ≠ f.w ∨ s.h ≠ f.h) ∧ allocOk = false))
    ∧ ((s.update f allocOk).copied = true →
        (s.update f allocOk).state.w = f.w ∧ (s.update f allocOk).state.h = f.h ∧
          ∃ t, (s.update f allocOk).state.tex = some t ∧ t.data = f.data) := by
  by_cases hna : s.tex = none ∨ s.w ≠ f.w ∨ s.h ≠ f.h
  · have hb : (s.tex.isNone || s.w != f.w || s.h != f.h) = true := by
      rcases hna with h | h | h <;> simp [h, Option.isNone_iff_eq_none]
    cases allocOk with
    | false => simp [SharedFrame.update, hb, hna]
    | true => simp [SharedFrame.update, hb, hna, copyResource, allocTexture]
  · have h1 : ¬s.tex = none := fun h => hna (Or.inl h)
    have h2 : s.w = f.w := by
      by_contra h
      exact hna (Or.inr (Or.inl h))
    have h3 : s.h = f.h := by
      by_contra h
      exact hna (Or.inr (Or.inr h))
    rcases Option.ne_none_iff_exists'.mp h1 with ⟨t, ht⟩
    have hb : (s.tex.isNone || s.w != f.w || s.h != f.h) = false := by
      simp [Option.isNone_iff_eq_none, ht, h2, h3]
    simp [SharedFrame.update, hb, hna, ht, copyResource, h2, h3]

/-- Witness for `sharedFrame_update_spec`: a first frame arriving into
the empty slot with a successful allocation. -/
theorem sharedFrame_update_spec_witness :
    ((SharedFrame.init.update ⟨2, 1, [1, 2, 3, 4, 5, 6, 7, 8]⟩ true).allocAttempted = true
        ↔ (SharedFrame.init.tex = none ∨ SharedFrame.init.w ≠ 2 ∨ SharedFrame.init.h ≠ 1))
    ∧ ((SharedFrame.init.tex = none ∨ SharedFrame.init.w ≠ 2 ∨ SharedFrame.init.h ≠ 1) →
        true = false →
        (SharedFrame.init.update ⟨2, 1, [1, 2, 3, 4, 5, 6, 7, 8]⟩ true).state = SharedFrame.init
          ∧ (SharedFrame.init.update ⟨2, 1, [1, 2, 3, 4, 5, 6, 7, 8]⟩ true).copied = false)
    ∧ ((SharedFrame.init.update ⟨2, 1, [1, 2, 3, 4, 5, 6, 7, 8]⟩ true).copied = false
        ↔ ((SharedFrame.init.tex = none ∨ SharedFrame.init.w ≠ 2 ∨ SharedFrame.init.h ≠ 1)
            ∧ true = false))
    ∧ ((SharedFrame.init.update ⟨2, 1, [1, 2, 3, 4, 5, 6, 7, 8]⟩ true).copied = true →
        (SharedFrame.init.update ⟨2, 1, [1, 2, 3, 4, 5, 6, 7, 8]⟩ true).state.w = 2
          ∧ (SharedFrame.init.update ⟨2, 1, [1, 2, 3, 4, 5, 6, 7, 8]⟩ true).state.h = 1
          ∧ ∃ t, (SharedFrame.init.update ⟨2, 1, [1, 2, 3, 4, 5, 6, 7, 8]⟩ true).state.tex
                  = some t ∧ t.data = [1, 2, 3, 4, 5, 6, 7, 8]) :=
  sharedFrame_update_spec SharedFrame.init ⟨2, 1, [1, 2, 3, 4, 5, 6, 7, 8]⟩ true


/-! ### Claim C10 (BMP writer layout) -/

set_option maxHeartbeats 2000000 in
/-- Claim C10: for every width `w > 0`, height `h > 0` and BGRA input
buffer of `4*w*h` bytes, a successful `BmpWriter::write` produces
exactly `54 + (3*w + pad) * h` bytes with `pad = (4 - (3*w mod 4)) mod 4`;
that count equals the little-endian `bfSize` field at bytes 2-5; each
output row `y` occupies bytes `[54 + (3*w+pad)*y, 54 + (3*w+pad)*(y+1))`
and consists of the B, G, R bytes of each input pixel in order (alpha
discarded) followed by `pad` zero bytes; and the info header declares 24
bits per pixel (bytes 28-29), `BI_RGB` compression (bytes 30-33 zero)
and the negative height `-h` (bytes 22-25, two's complement), i.e.
top-down row order.  The size bound keeps `bfSize` inside its 32-bit
field. -/
theorem bmp_write_layout (w h : Nat) (bgra : List Nat)
    (hw : 0 < w) (hh : 0 < h)
    (_hlen : bgra.length = 4 * w * h)
    (hsize : 54 + (3 * w + (4 - 3 * w % 4) % 4) * h < 4294967296) :
    (BmpWriter.write bgra w h).length = 54 + (3 * w + (4 - 3 * w % 4) % 4) * h
    ∧ decodeU32 ((BmpWriter.write bgra w h).getD 2 0) ((BmpWriter.write bgra w h).getD 3 0)
        ((BmpWriter.write bgra w h).getD 4 0) ((BmpWriter.write bgra w h).getD 5 0)
      = (BmpWriter.write bgra w h).length
    ∧ (∀ y, y < h →
        (((BmpWriter.write bgra w h).drop (54 + (3 * w + (4 - 3 * w % 4) % 4) * y)).take
            (3 * w + (4 - 3 * w % 4) % 4))
          = ((List.range w).flatMap fun x =>
              [bgra.getD ((y * w + x) * 4) 0, bgra.getD ((y * w + x) * 4 + 1) 0,
               bgra.getD ((y * w + x) * 4 + 2) 0])
            ++ List.replicate ((4 - 3 * w % 4) % 4) 0)
    ∧ (BmpWriter.write bgra w h).getD 28 0 = 24
    ∧ (BmpWriter.write bgra w h).getD 29 0 = 0
    ∧ (BmpWriter.write bgra w h).getD 30 0 = 0
    ∧ (BmpWriter.write bgra w h).getD 31 0 = 0
    ∧ (BmpWriter.write bgra w h).getD 32 0 = 0
    ∧ (BmpWriter.write bgra w h).getD 33 0 = 0
    ∧ decodeI32 ((BmpWriter.write bgra w h).getD 22 0) ((BmpWriter.write bgra w h).getD 23 0)
        ((BmpWriter.write bgra w h).getD 24 0) ((BmpWriter.write bgra w h).getD 25 0)
      = -(h : Int) := by
  have hS : 54 + bmpDataSize w h < 4294967296 := by
    rw [bmpDataSize_eq]; exact hsize
  have hlen54 : (BmpWriter.write bgra w h).length
      = 54 + (3 * w + (4 - 3 * w % 4) % 4) * h := by
    rw [bmpWrite_length, bmpDataSize_eq]
  have hhbound : h ≤ 2147483647 := by
    have h3w : 3 ≤ 3 * w + (4 - 3 * w % 4) % 4 := by omega
    have hmul : 3 * h ≤ (3 * w + (4 - 3 * w % 4) % 4) * h := Nat.mul_le_mul_right h h3w
    omega
  refine ⟨hlen54, ?_, ?_, rfl, rfl, rfl, rfl, rfl, rfl, ?_⟩
  · have h2 : (BmpWriter.write bgra w h).getD 2 0
        = (bmpOffBits + bmpDataSize w h) % 256 := rfl
    have h3 : (BmpWriter.write bgra w h).getD 3 0
        = (bmpOffBits + bmpDataSize w h) / 256 % 256 := rfl
    have h4 : (BmpWriter.write bgra w h).getD 4 0
        = (bmpOffBits + bmpDataSize w h) / 65536 % 256 := rfl
    have h5 : (BmpWriter.write bgra w h).getD 5 0
        = (bmpOffBits + bmpDataSize w h) / 16777216 % 256 := rfl
    rw [h2, h3, h4, h5, bmpWrite_length, decodeU32,
      show bmpOffBits = 54 from rfl]
    omega
  · intro y hy
    have hdrop : (BmpWriter.write bgra w h).drop (54 + (bmpStride w + bmpPad w) * y)
        = (bmpPixelData bgra w h).drop ((bmpStride w + bmpPad w) * y) := by
      rw [BmpWriter.write,
        show (54 : Nat) + (bmpStride w + bmpPad w) * y
          = (bmpFileHeader (bmpOffBits + bmpDataSize w h) ++ bmpInfoHeader w h).length
            + (bmpStride w + bmpPad w) * y from rfl]
      exact List.drop_append _
    have hchunk := flatMap_range_chunk (bmpRowBytes bgra w) (bmpStride w + bmpPad w) h y
      (fun i => bmpRowBytes_length bgra w i) hy
    rw [← bmpPad_eq w, show 3 * w = bmpStride w from Nat.mul_comm 3 w, hdrop]
    exact hchunk
  · have h22 : (BmpWriter.write bgra w h).getD 22 0
        = ((-(h : Int)) % 4294967296).toNat % 256 := rfl
    have h23 : (BmpWriter.write bgra w h).getD 23 0
        = ((-(h : Int)) % 4294967296).toNat / 256 % 256 := rfl
    have h24 : (BmpWriter.write bgra w h).getD 24 0
        = ((-(h : Int)) % 4294967296).toNat / 65536 % 256 := rfl
    have h25 : (BmpWriter.write bgra w h).getD 25 0
        = ((-(h : Int)) % 4294967296).toNat / 16777216 % 256 := rfl
    rw [h22, h23, h24, h25]
    have hu : ((-(h : Int)) % 4294967296).toNat = 4294967296 - h := by omega
    rw [hu]
    simp only [decodeI32, decodeU32]
    have hcond : ¬ ((4294967296 - h) % 256 + 256 * ((4294967296 - h) / 256 % 256)
        + 65536 * ((4294967296 - h) / 65536 % 256)
        + 16777216 * ((4294967296 - h) / 16777216 % 256) < 2147483648) := by omega
    rw [if_neg hcond]
    omega

/-- Witness for `bmp_write_layout`: a single BGRA pixel `[10, 20, 30, 40]`
in a 1×1 image. -/
theorem bmp_write_layout_witness :
    (BmpWriter.write ([10, 20, 30, 40] : List Nat) 1 1).length
      = 54 + (3 * 1 + (4 - 3 * 1 % 4) % 4) * 1
    ∧ decodeU32 ((BmpWriter.write ([10, 20, 30, 40] : List Nat) 1 1).getD 2 0)
        ((BmpWriter.write ([10, 20, 30, 40] : List Nat) 1 1).getD 3 0)
        ((BmpWriter.write ([10, 20, 30, 40] : List Nat) 1 1).getD 4 0)
        ((BmpWriter.write ([10, 20, 30, 40] : List Nat) 1 1).getD 5 0)
      = (BmpWriter.write ([10, 20, 30, 40] : List Nat) 1 1).length
    ∧ (∀ y, y < 1 →
        (((BmpWriter.write ([10, 20, 30, 40] : List Nat) 1 1).drop
              (54 + (3 * 1 + (4 - 3 * 1 % 4) % 4) * y)).take
            (3 * 1 + (4 - 3 * 1 % 4) % 4))
          = ((List.range 1).flatMap fun x =>
              [([10, 20, 30, 40] : List Nat).getD ((y * 1 + x) * 4) 0,
               ([10, 20, 30, 40] : List Nat).getD ((y * 1 + x) * 4 + 1) 0,
               ([10, 20, 30, 40] : List Nat).getD ((y * 1 + x) * 4 + 2) 0])
            ++ List.replicate ((4 - 3 * 1 % 4) % 4) 0)
    ∧ (BmpWriter.write ([10, 20, 30, 40] : List Nat) 1 1).getD 28 0 = 24
    ∧ (BmpWriter.write ([10, 20, 30, 40] : List Nat) 1 1).getD 29 0 = 0
    ∧ (BmpWriter.write ([10, 20, 30, 40] : List Nat) 1 1).getD 30 0 = 0
    ∧ (BmpWriter.write ([10, 20, 30, 40] : List Nat) 1 1).getD 31 0 = 0
    ∧ (BmpWriter.write ([10, 20, 30, 40] : List Nat) 1 1).getD 32 0 = 0
    ∧ (BmpWriter.write ([10, 20, 30, 40] : List Nat) 1 1).getD 33 0 = 0
    ∧ decodeI32 ((BmpWriter.write ([10, 20, 30, 40] : List Nat) 1 1).getD 22 0)
        ((BmpWriter.write ([10, 20, 30, 40] : List Nat) 1 1).getD 23 0)
        ((BmpWriter.write ([10, 20, 30, 40] : List Nat) 1 1).getD 24 0)
        ((BmpWriter.write ([10, 20, 30, 40] : List Nat) 1 1).getD 25 0)
      = -(1 : Int) :=
  bmp_write_layout 1 1 [10, 20, 30, 40] (by decide) (by decide) (by decide) (by decide)

/-! ### Decimal-rendering and lexicographic-order lemmas (file naming) -/

theorem decDigitsCore_fuel (v : Nat) : ∀ f₁ f₂ : Nat, v < f₁ → v < f₂ →
    decDigitsCore f₁ v = decDigitsCore f₂ v := by
  induction v using Nat.strong_induction_on with
  | _ v ih =>
    intro f₁ f₂ h₁ h₂
    rcases f₁ with _ | a
    · omega
    rcases f₂ with _ | b
    · omega
    by_cases hv : v < 10
    · simp [decDigitsCore, hv]
    · simp only [decDigitsCore, hv, if_neg]
      have hlt : v / 10 < v := Nat.div_lt_self (by omega) (by omega)
      rw [ih (v / 10) hlt a (v / 10 + 1) (by omega) (by omega),
        ih (v / 10) hlt b (v / 10 + 1) (by omega) (by omega)]

theorem decDigits_unfold (v : Nat) :
    decDigits v = if v < 10 then [digitChar v]
      else decDigits (v / 10) ++ [digitChar (v % 10)] := by
  by_cases hv : v < 10
  · simp [decDigits, decDigitsCore, hv]
  · rw [if_neg hv,
      show decDigits v = if v < 10 then [digitChar v]
        else decDigitsCore v (v / 10) ++ [digitChar (v % 10)] from rfl,
      if_neg hv,
      decDigitsCore_fuel (v / 10) v (v / 10 + 1)
        (Nat.div_lt_self (by omega) (by omega)) (by omega)]
    rfl

theorem decDigits_len_le (v : Nat) : ∀ w : Nat, 1 ≤ w → v < 10 ^ w →
    (decDigits v).length ≤ w := by
  induction v using Nat.strong_induction_on with
  | _ v ih =>
    intro w hw hv
    by_cases h10 : v < 10
    · rw [decDigits_unfold, if_pos h10]
      simpa using hw
    · rw [decDigits_unfold, if_neg h10]
      rcases w with _ | w'
      · omega
      have hw' : 1 ≤ w' := by
        by_contra hc
        have : w' = 0 := by omega
        subst this
        simp at hv
        omega
      have hdiv : v / 10 < 10 ^ w' := by
        have : v < 10 * 10 ^ w' := by
          have := pow_succ 10 w'
          omega
        omega
      have := ih (v / 10) (Nat.div_lt_self (by omega) (by omega)) w' hw' hdiv
      simp [List.length_append]
      omega

theorem digitsFixed_length (w : Nat) : ∀ v : Nat, (digitsFixed w v).length = w := by
  induction w with
  | zero => intro v; rfl
  | succ w ih => intro v; simp [digitsFixed, ih]

theorem digitsFixed_peel (n : Nat) : ∀ v : Nat, v < 10 ^ (n + 1) →
    digitsFixed (n + 1) v = digitsFixed n (v / 10) ++ [digitChar (v % 10)] := by
  induction n with
  | zero =>
    intro v hv
    simp only [digitsFixed, pow_zero, Nat.div_one, Nat.mod_one]
    have hm : v % 10 = v := Nat.mod_eq_of_lt (by simpa using hv)
    rw [hm]
    rfl
  | succ n ih =>
    intro v hv
    have hpow : (10 : Nat) ^ (n + 1) = 10 * 10 ^ n := by
      rw [pow_succ, Nat.mul_comm]
    have hhead : v / 10 / 10 ^ n = v / 10 ^ (n + 1) := by
      rw [Nat.div_div_eq_div_mul, hpow]
    have hmod : v % 10 ^ (n + 1) < 10 ^ (n + 1) := Nat.mod_lt _ (by positivity)
    have hdivmod : v % 10 ^ (n + 1) / 10 = v / 10 % 10 ^ n := by
      rw [hpow]
      exact Nat.mod_mul_right_div_self v 10 (10 ^ n)
    have hmodmod : v % 10 ^ (n + 1) % 10 = v % 10 :=
      Nat.mod_mod_of_dvd v ⟨10 ^ n, hpow⟩
    show digitChar (v / 10 ^ (n + 1)) :: digitsFixed (n + 1) (v % 10 ^ (n + 1))
        = (digitChar (v / 10 / 10 ^ n) :: digitsFixed n (v / 10 % 10 ^ n))
          ++ [digitChar (v % 10)]
    rw [ih (v % 10 ^ (n + 1)) hmod, hdivmod, hmodmod, hhead]
    simp

theorem decDigits_eq_digitsFixed (w : Nat) : ∀ v : Nat, 10 ^ w ≤ v → v < 10 ^ (w + 1) →
    decDigits v = digitsFixed (w + 1) v := by
  induction w with
  | zero =>
    intro v hlo hhi
    have h10 : v < 10 := by simpa using hhi
    rw [decDigits_unfold, if_pos h10]
    show [digitChar v] = digitChar (v / 10 ^ 0) :: digitsFixed 0 (v % 10 ^ 0)
    simp [digitsFixed]
  | succ w ih =>
    intro v hlo hhi
    have hv10 : ¬ v < 10 := by
      have : (10 : Nat) ≤ 10 ^ (w + 1) := by
        calc (10 : Nat) = 10 ^ 1 := (pow_one 10).symm
        _ ≤ 10 ^ (w + 1) := Nat.pow_le_pow_right (by omega) (by omega)
      omega
    rw [decDigits_unfold, if_neg hv10]
    have hpow : (10 : Nat) ^ (w + 2) = 10 * 10 ^ (w + 1) := by
      rw [pow_succ, Nat.mul_comm]
    have hlo' : 10 ^ w ≤ v / 10 := by
      have h1 : (10 : Nat) ^ (w + 1) = 10 * 10 ^ w := by rw [pow_succ, Nat.mul_comm]
      rw [Nat.le_div_iff_mul_le (by omega)]
      calc 10 ^ w * 10 = 10 * 10 ^ w := Nat.mul_comm ..
      _ = 10 ^ (w + 1) := h1.symm
      _ ≤ v := hlo
    have hhi' : v / 10 < 10 ^ (w + 1) := by
      rw [Nat.div_lt_iff_lt_mul (by omega)]
      calc v < 10 ^ (w + 2) := hhi
      _ = 10 ^ (w + 1) * 10 := by rw [pow_succ]
    rw [ih (v / 10) hlo' hhi']
    rw [← digitsFixed_peel (w + 1) v hhi]

theorem digitsFixed_leading_zero (n v : Nat) (hv : v < 10 ^ n) :
    digitsFixed (n + 1) v = '0' :: digitsFixed n v := by
  show digitChar (v / 10 ^ n) :: digitsFixed n (v % 10 ^ n) = '0' :: digitsFixed n v
  rw [Nat.div_eq_of_lt hv, Nat.mod_eq_of_lt hv]
  rfl

theorem padDec_eq_digitsFixed (w : Nat) : ∀ v : Nat, 1 ≤ w → v < 10 ^ w →
    padDec w v = digitsFixed w v := by
  induction w with
  | zero => intro v hw _; omega
  | succ w ih =>
    intro v _ hv
    rcases Nat.eq_zero_or_pos w with hw0 | hwpos
    · subst hw0
      have h10 : v < 10 := by simpa using hv
      have hdd : decDigits v = [digitChar v] := by
        rw [decDigits_unfold, if_pos h10]
      rw [padDec, hdd]
      simp [digitsFixed]
    · by_cases hsmall : v < 10 ^ w
      · have hlen : (decDigits v).length ≤ w := decDigits_len_le v w hwpos hsmall
        rw [padDec, show w + 1 - (decDigits v).length = (w - (decDigits v).length) + 1
          from by omega, List.replicate_succ]
        rw [show ('0' :: List.replicate (w - (decDigits v).length) '0') ++ decDigits v
          = '0' :: (List.replicate (w - (decDigits v).length) '0' ++ decDigits v)
          from rfl]
        rw [show List.replicate (w - (decDigits v).length) '0' ++ decDigits v
          = padDec w v from rfl]
        rw [ih v hwpos hsmall, digitsFixed_leading_zero w v hsmall]
      · have hlo : 10 ^ w ≤ v := by omega
        have heq := decDigits_eq_digitsFixed w v hlo hv
        have hlen : (decDigits v).length = w + 1 := by
          rw [heq, digitsFixed_length]
        rw [padDec, hlen, Nat.sub_self, List.replicate_zero, List.nil_append, heq]

theorem digitChar_lt (d₁ d₂ : Nat) (h : d₁ < d₂) (h9 : d₂ ≤ 9) :
    digitChar d₁ < digitChar d₂ := by
  have hd1 : d₁ ≤ 8 := by omega
  interval_cases d₁ <;> interval_cases d₂ <;> decide

theorem digitsFixed_lt (w : Nat) : ∀ a b : Nat, a < b → b < 10 ^ w →
    List.Lex (· < ·) (digitsFixed w a) (digitsFixed w b) := by
  induction w with
  | zero =>
    intro a b hab hb
    simp at hb
    omega
  | succ w ih =>
    intro a b hab hb
    have hq : a / 10 ^ w ≤ b / 10 ^ w := Nat.div_le_div_right hab.le
    show List.Lex (· < ·) (digitChar (a / 10 ^ w) :: digitsFixed w (a % 10 ^ w))
      (digitChar (b / 10 ^ w) :: digitsFixed w (b % 10 ^ w))
    rcases Nat.lt_or_ge (a / 10 ^ w) (b / 10 ^ w) with hlt | hge
    · refine List.Lex.rel ?_
      refine digitChar_lt _ _ hlt ?_
      have : b / 10 ^ w < 10 := by
        rw [Nat.div_lt_iff_lt_mul (by positivity)]
        calc b < 10 ^ (w + 1) := hb
        _ = 10 * 10 ^ w := by rw [pow_succ, Nat.mul_comm]
      omega
    · have hqeq : a / 10 ^ w = b / 10 ^ w := by omega
      rw [hqeq]
      refine List.Lex.cons ?_
      have hda := Nat.div_add_mod a (10 ^ w)
      have hdb := Nat.div_add_mod b (10 ^ w)
      have hmlt : a % 10 ^ w < b % 10 ^ w := by
        have h1 : 10 ^ w * (a / 10 ^ w) + a % 10 ^ w = a := hda
        have h2 : 10 ^ w * (b / 10 ^ w) + b % 10 ^ w = b := hdb
        rw [hqeq] at h1
        omega
      exact ih _ _ hmlt (Nat.mod_lt _ (by positivity))

theorem padDec_length (w v : Nat) (hw : 1 ≤ w) (hv : v < 10 ^ w) :
    (padDec w v).length = w := by
  rw [padDec_eq_digitsFixed w v hw hv, digitsFixed_length]

theorem padDec_lt (w a b : Nat) (hw : 1 ≤ w) (hab : a < b) (hb : b < 10 ^ w) :
    List.Lex (· < ·) (padDec w a) (padDec w b) := by
  rw [padDec_eq_digitsFixed w a hw (by omega), padDec_eq_digitsFixed w b hw hb]
  exact digitsFixed_lt w a b hab hb

theorem lexIrrefl (l : List Char) : ¬ List.Lex (· < ·) l l := by
  induction l with
  | nil => intro h; cases h
  | cons a t ih =>
    intro h
    cases h with
    | rel h => exact lt_irrefl a h
    | cons h => exact ih h

theorem lexAppendSame {α : Type} {r : α → α → Prop} (s t₁ t₂ : List α)
    (h : List.Lex r t₁ t₂) : List.Lex r (s ++ t₁) (s ++ t₂) := by
  induction s with
  | nil => exact h
  | cons a s ih => exact List.Lex.cons ih

theorem lexAppendFirst {α : Type} {r : α → α → Prop} (l₁ l₂ t₁ t₂ : List α)
    (hlen : l₁.length = l₂.length) (h : List.Lex r l₁ l₂) :
    List.Lex r (l₁ ++ t₁) (l₂ ++ t₂) := by
  induction l₁ generalizing l₂ with
  | nil =>
    rcases l₂ with _ | ⟨b, l₂⟩
    · cases h
    · simp at hlen
  | cons a l₁ ih =>
    rcases l₂ with _ | ⟨b, l₂⟩
    · simp at hlen
    · cases h with
      | rel h => exact List.Lex.rel h
      | cons h => exact List.Lex.cons (ih l₂ (by simpa using hlen) h)

theorem keyLT_lex (k₁ k₂ : List Nat) (h : keyLT k₁ k₂ = true) :
    List.Lex (· < ·) k₁ k₂ := by
  induction k₁ generalizing k₂ with
  | nil =>
    rcases k₂ with _ | ⟨b, bs⟩
    · simp [keyLT] at h
    · exact List.Lex.nil
  | cons a as ih =>
    rcases k₂ with _ | ⟨b, bs⟩
    · simp [keyLT] at h
    · simp only [keyLT, Bool.or_eq_true, Bool.and_eq_true, decide_eq_true_eq, beq_iff_eq] at h
      rcases h with h | ⟨rfl, h⟩
      · exact List.Lex.rel h
      · exact List.Lex.cons (ih bs h)

theorem renderFields_lt (fs₁ : List (Nat × Nat × List Char)) :
    ∀ fs₂ : List (Nat × Nat × List Char),
    (fs₁.map fun f => (f.1, f.2.2)) = (fs₂.map fun f => (f.1, f.2.2)) →
    (∀ f ∈ fs₁, 1 ≤ f.1) →
    (∀ f ∈ fs₁, f.2.1 < 10 ^ f.1) →
    (∀ f ∈ fs₂, f.2.1 < 10 ^ f.1) →
    List.Lex (· < ·) (fs₁.map fun f => f.2.1) (fs₂.map fun f => f.2.1) →
    List.Lex (· < ·) (renderFields fs₁) (renderFields fs₂) := by
  induction fs₁ with
  | nil =>
    intro fs₂ hshape _ _ _ hlex
    rcases fs₂ with _ | ⟨g, gs⟩
    · simp at hlex
    · simp at hshape
  | cons f fs ih =>
    intro fs₂ hshape hw hb₁ hb₂ hlex
    rcases fs₂ with _ | ⟨g, gs⟩
    · simp at hshape
    · obtain ⟨wf, vf, sf⟩ := f
      obtain ⟨wg, vg, sg⟩ := g
      simp only [List.map_cons, List.cons.injEq, Prod.mk.injEq] at hshape
      obtain ⟨⟨hww, hss⟩, hshape'⟩ := hshape
      subst hww
      subst hss
      simp only [List.map_cons] at hlex
      have hwf : 1 ≤ wf := hw (wf, vf, sf) (by simp)
      cases hlex with
      | rel hvv =>
        refine lexAppendFirst _ _ _ _ ?_ ?_
        · rw [padDec_length wf vf hwf (hb₁ (wf, vf, sf) (by simp)),
            padDec_length wf vg hwf (hb₂ (wf, vg, sf) (by simp))]
        · exact padDec_lt wf vf vg hwf hvv (hb₂ (wf, vg, sf) (by simp))
      | cons htail =>
        show List.Lex (· < ·) (padDec wf vf ++ (sf ++ renderFields fs))
          (padDec wf vf ++ (sf ++ renderFields gs))
        refine lexAppendSame _ _ _ (lexAppendSame _ _ _ ?_)
        exact ih gs hshape' (fun x hx => hw x (by simp [hx]))
          (fun x hx => hb₁ x (by simp [hx])) (fun x hx => hb₂ x (by simp [hx])) htail

theorem fileName_eq_renderFields (t : UtcTime) (idx : Nat) :
    fileName t idx = renderFields (nameFields t idx) := by
  simp [fileName, nameFields, renderFields, List.append_assoc]

theorem UtcTime.key_inj (t₁ t₂ : UtcTime) (h : t₁.key = t₂.key) : t₁ = t₂ := by
  obtain ⟨y₁, mo₁, d₁, h₁, mi₁, s₁, ms₁⟩ := t₁
  obtain ⟨y₂, mo₂, d₂, h₂, mi₂, s₂, ms₂⟩ := t₂
  simp [UtcTime.key] at h
  obtain ⟨rfl, rfl, rfl, rfl, rfl, rfl, rfl⟩ := h
  rfl

theorem fileName_lt (t₁ t₂ : UtcTime) (i j : Nat)
    (h₁ : t₁.fitsWidths = true) (h₂ : t₂.fitsWidths = true)
    (hi : i < 100000) (hj : j < 100000)
    (hcase : keyLT t₁.key t₂.key = true ∨ (t₁.key = t₂.key ∧ i < j)) :
    List.Lex (· < ·) (fileName t₁ i) (fileName t₂ j) := by
  simp only [UtcTime.fitsWidths, Bool.and_eq_true, decide_eq_true_eq] at h₁ h₂
  rw [fileName_eq_renderFields, fileName_eq_renderFields]
  apply renderFields_lt
  · rfl
  · intro f hf
    simp only [nameFields, List.mem_cons, List.not_mem_nil, or_false] at hf
    rcases hf with rfl | rfl | rfl | rfl | rfl | rfl | rfl | rfl <;> norm_num
  · intro f hf
    simp only [nameFields, List.mem_cons, List.not_mem_nil, or_false] at hf
    rcases hf with rfl | rfl | rfl | rfl | rfl | rfl | rfl | rfl <;> norm_num <;> omega
  · intro f hf
    simp only [nameFields, List.mem_cons, List.not_mem_nil, or_false] at hf
    rcases hf with rfl | rfl | rfl | rfl | rfl | rfl | rfl | rfl <;> norm_num <;> omega
  · show List.Lex (· < ·) (t₁.key ++ [i]) (t₂.key ++ [j])
    rcases hcase with hlt | ⟨hkey, hij⟩
    · exact lexAppendFirst _ _ _ _ rfl (keyLT_lex _ _ hlt)
    · rw [hkey]
      exact lexAppendSame _ _ _ (List.Lex.rel hij)

/-! ### Claim C5 (file naming) -/

/-- Claim C5: within one session, under the code's name pattern of a UTC
millisecond timestamp plus a zero-padded 5-digit per-session sequence
number (the `k`-th save uses sequence number `k`, so later saves carry
strictly greater sequence numbers by construction), if the wall clock
never runs backwards across the session's saves, every component fits
its printed width, and the session stays within the 5-digit sequence
range, then no two file names collide and the names sort
chronologically: lexicographic order of names equals save order. -/
theorem session_names_sorted (ts : List UtcTime)
    (hfit : ∀ t ∈ ts, t.fitsWidths = true)
    (hchron : ts.Pairwise fun a b => keyLE a.key b.key = true)
    (hlen : ts.length ≤ 100000) :
    (sessionNames ts).Pairwise fun n₁ n₂ => List.Lex (· < ·) n₁ n₂ ∧ n₁ ≠ n₂ := by
  rw [List.pairwise_iff_getElem] at hchron ⊢
  intro i j hi hj hij
  have hleneq : (sessionNames ts).length = ts.length := by
    simp [sessionNames]
  have hi' : i < ts.length := by omega
  have hj' : j < ts.length := by omega
  have hgi : (sessionNames ts)[i] = fileName ts[i] i := by
    simp [sessionNames]
  have hgj : (sessionNames ts)[j] = fileName ts[j] j := by
    simp [sessionNames]
  have hk := hchron i j hi' hj' hij
  have hcase : keyLT ts[i].key ts[j].key = true ∨ (ts[i].key = ts[j].key ∧ i < j) := by
    simp only [keyLE, Bool.or_eq_true, beq_iff_eq] at hk
    rcases hk with h | h
    · exact Or.inr ⟨h, hij⟩
    · exact Or.inl h
  have hlex : List.Lex (· < ·) (fileName ts[i] i) (fileName ts[j] j) :=
    fileName_lt ts[i] ts[j] i j (hfit _ (List.getElem_mem hi'))
      (hfit _ (List.getElem_mem hj')) (by omega) (by omega) hcase
  rw [hgi, hgj]
  refine ⟨hlex, ?_⟩
  intro heq
  rw [heq] at hlex
  exact lexIrrefl _ hlex

/-- Witness for `session_names_sorted`: three saves, the first two in the
very same millisecond, the third a little later; the three names are
strictly increasing and pairwise distinct. -/
theorem session_names_sorted_witness :
    (sessionNames [⟨2025, 12, 31, 23, 59, 59, 999⟩, ⟨2025, 12, 31, 23, 59, 59, 999⟩,
        ⟨2026, 1, 1, 0, 0, 0, 5⟩]).Pairwise
      (fun n₁ n₂ => List.Lex (· < ·) n₁ n₂ ∧ n₁ ≠ n₂) :=
  session_names_sorted
    [⟨2025, 12, 31, 23, 59, 59, 999⟩, ⟨2025, 12, 31, 23, 59, 59, 999⟩,
     ⟨2026, 1, 1, 0, 0, 0, 5⟩]
    (by decide) (by decide) (by decide)
